import Mathlib

/-!
Shallow embedding of the crash-game server (`src/main.py`): the SQLite
ledger (`users` and `bets` tables), the ledger operations
(`get_balance`, `update_balance`, `place_bet`, `cashout`, `reset_bets`),
the HTTP handlers (`bet`, `do_cashout`) gated on the shared `game_state`,
and the flight part of `game_loop` as a function of the streams of random
draws. REAL columns are modelled as rationals, tables as lists in rowid
(insertion) order, `fetchone` as `List.find?`.
-/

namespace Kuttybol

/-- A row of the `bets` table: `(telegram_id, amount, cashed_out, multiplier)`,
with SQL defaults `cashed_out = 0`, `multiplier = 1.0`. -/
structure Wager where
  telegram_id : String
  amount : ℚ
  cashed_out : Bool
  multiplier : ℚ
deriving DecidableEq, Repr

/-- The database: the `users` table (telegram_id, balance) and the `bets`
table, each in insertion order. -/
structure DB where
  users : List (String × ℚ)
  bets : List Wager
deriving DecidableEq, Repr

/-- `SELECT balance FROM users WHERE telegram_id = ?` followed by `fetchone`. -/
def lookupBalance (uid : String) (users : List (String × ℚ)) : Option ℚ :=
  (users.find? (fun p => p.1 == uid)).map Prod.snd

/-- `get_balance`: returns the stored balance, inserting a zero-balance row
first when the user is absent (lazy account creation). -/
def get_balance (uid : String) (db : DB) : ℚ × DB :=
  match lookupBalance uid db.users with
  | some b => (b, db)
  | none => (0, ⟨db.users ++ [(uid, 0)], db.bets⟩)

/-- `update_balance`: upsert adding `amt` to the user's balance
(`INSERT ... ON CONFLICT ... DO UPDATE SET balance = balance + ?`). -/
def update_balance (uid : String) (amt : ℚ) (db : DB) : DB :=
  if (db.users.find? (fun p => p.1 == uid)).isSome then
    ⟨db.users.map (fun p => if p.1 == uid then (p.1, p.2 + amt) else p), db.bets⟩
  else ⟨db.users ++ [(uid, amt)], db.bets⟩

/-- `place_bet`: inserts a bets row (SQL defaults for the last two columns)
and debits the amount from the user's balance. -/
def place_bet (uid : String) (amt : ℚ) (db : DB) : DB :=
  ⟨db.users.map (fun p => if p.1 == uid then (p.1, p.2 - amt) else p),
   db.bets ++ [⟨uid, amt, false, 1⟩]⟩

/-- The `WHERE telegram_id = ? AND cashed_out = 0` row filter of `cashout`. -/
def isOpenFor (uid : String) (w : Wager) : Bool :=
  w.telegram_id == uid && !w.cashed_out

/-- The user's unsettled wager rows, in rowid order. -/
def unsettled (uid : String) (bets : List Wager) : List Wager :=
  bets.filter (isOpenFor uid)

/-- The effect on one bets row of
`UPDATE bets SET cashed_out = 1, multiplier = ? WHERE telegram_id = ?`. -/
def settleRow (uid : String) (m : ℚ) (w : Wager) : Wager :=
  if w.telegram_id == uid then ⟨w.telegram_id, w.amount, true, m⟩ else w

/-- `cashout`: `fetchone` on the user's unsettled rows; if one exists, credits
`amount * multiplier` to the balance and marks every row of the user cashed
out with the given multiplier; otherwise returns 0 unchanged. -/
def cashout (uid : String) (m : ℚ) (db : DB) : ℚ × DB :=
  match db.bets.find? (isOpenFor uid) with
  | some w =>
      (w.amount * m,
       ⟨db.users.map (fun p => if p.1 == uid then (p.1, p.2 + w.amount * m) else p),
        db.bets.map (settleRow uid m)⟩)
  | none => (0, db)

/-- `reset_bets`: `DELETE FROM bets`. -/
def reset_bets (db : DB) : DB := ⟨db.users, []⟩

/-- The shared `game_state` dictionary. -/
structure GameState where
  time_left : Int
  multiplier : ℚ
  is_running : Bool
deriving DecidableEq, Repr

/-- `POST /bet`: gate `not is_running and time_left <= 0`, then balance
check, then `place_bet`; returns the response's `status` string and the
resulting database. -/
def bet (gs : GameState) (uid : String) (amt : ℚ) (db : DB) : String × DB :=
  if ¬gs.is_running ∧ gs.time_left ≤ 0 then
    if (get_balance uid db).1 ≥ amt then
      ("bet placed", place_bet uid amt (get_balance uid db).2)
    else ("insufficient funds", (get_balance uid db).2)
  else ("betting closed", db)

/-- `POST /cashout`: when `is_running`, delegates to `cashout` at the current
`game_state` multiplier; returns the `status` string, the `win` field when
present, and the resulting database. -/
def do_cashout (gs : GameState) (uid : String) (db : DB) :
    (String × Option ℚ) × DB :=
  if gs.is_running then
    (("cashed out", some (cashout uid gs.multiplier db).1),
     (cashout uid gs.multiplier db).2)
  else (("not running", none), db)

/-- The `{type: "state", ...}` snapshot sent to a freshly connected
websocket client: `(is_running, multiplier, time_left)`. -/
def snapshot (gs : GameState) : Bool × ℚ × Int :=
  (gs.is_running, gs.multiplier, gs.time_left)

/-- `round(x, 2)` on a flight increment draw: rounding to two decimal
places. -/
def round2 (q : ℚ) : ℚ := ((round (q * 100) : ℤ) : ℚ) / 100

/-- One flight tick consumes a pair `(d, c)` of the round's random stream:
`d` is the `random.uniform(0.01, 0.05)` draw, `c` is the outcome of the
crash roll `random.random() < 0.01`. `flightFinal m ticks` runs the flight
loop from local multiplier `m`: each tick adds `round2 d`, then breaks when
`c` or the multiplier exceeds 100; `some` of the final multiplier when the
loop breaks within the given stream, `none` otherwise. -/
def flightFinal (m : ℚ) : List (ℚ × Bool) → Option ℚ
  | [] => none
  | (d, c) :: rest =>
      if c ∨ m + round2 d > 100 then some (m + round2 d)
      else flightFinal (m + round2 d) rest

/-- The successive multiplier values published to `game_state` (one
`{type: "multiplier"}` event each) while the flight loop runs. -/
def flightMults (m : ℚ) : List (ℚ × Bool) → List ℚ
  | [] => []
  | (d, c) :: rest =>
      if c ∨ m + round2 d > 100 then [m + round2 d]
      else (m + round2 d) :: flightMults (m + round2 d) rest

/-- All flight draws lie in the `random.uniform(0.01, 0.05)` range. -/
def validTicks (l : List (ℚ × Bool)) : Prop :=
  ∀ p ∈ l, 1/100 ≤ p.1 ∧ p.1 ≤ 5/100

/-- The `game_state` at the end of one round's flight loop (just before the
crash pause): the countdown has reached 0, `is_running` is still true, and
the published multiplier is the flight's final value, the local flight
multiplier having started at 1.0. `none` when the stream never breaks. -/
def roundEnd (ticks : List (ℚ × Bool)) : Option GameState :=
  (flightFinal 1 ticks).map (fun m => ⟨0, m, true⟩)

/-- The first two statements of each `game_loop` iteration, i.e. the
`game_state` at entry into Countdown: `time_left = 10`,
`is_running = False`; the published multiplier is left as it was. -/
def countdownEntry (gs : GameState) : GameState := ⟨10, gs.multiplier, false⟩

/-! ### Helper lemmas about the ledger operations -/

lemma find?_eq_filter_head? {α : Type} (p : α → Bool) (l : List α) :
    l.find? p = (l.filter p).head? := by
  induction l with
  | nil => rfl
  | cons a t ih =>
      cases hpa : p a with
      | true =>
          rw [List.find?_cons_of_pos t hpa, List.filter_cons_of_pos hpa,
            List.head?_cons]
      | false =>
          rw [List.find?_cons_of_neg t (by simp [hpa]),
            List.filter_cons_of_neg (by simp [hpa]), ih]

lemma find?_isOpen_of_unsettled_nil (uid : String) (bets : List Wager)
    (h : unsettled uid bets = []) : bets.find? (isOpenFor uid) = none := by
  rw [find?_eq_filter_head?]
  have h' : bets.filter (isOpenFor uid) = [] := h
  simp [h']

lemma find?_isOpen_of_unsettled_cons (uid : String) (bets : List Wager)
    (w : Wager) (ws : List Wager) (h : unsettled uid bets = w :: ws) :
    bets.find? (isOpenFor uid) = some w := by
  rw [find?_eq_filter_head?]
  have h' : bets.filter (isOpenFor uid) = w :: ws := h
  simp [h']

lemma lookupBalance_cons (uid : String) (a : String × ℚ)
    (t : List (String × ℚ)) :
    lookupBalance uid (a :: t)
      = if (a.1 == uid) then some a.2 else lookupBalance uid t := by
  cases hpa : (a.1 == uid) with
  | true =>
      rw [if_pos rfl]
      simp only [lookupBalance]
      rw [List.find?_cons_of_pos (p := fun x => x.1 == uid) t hpa]
      rfl
  | false =>
      rw [if_neg (by simp)]
      simp only [lookupBalance]
      rw [List.find?_cons_of_neg (p := fun x => x.1 == uid) t (by simp [hpa])]

lemma lookupBalance_map_adjust (uid : String) (g : ℚ → ℚ)
    (l : List (String × ℚ)) :
    lookupBalance uid (l.map (fun p => if p.1 == uid then (p.1, g p.2) else p))
      = (lookupBalance uid l).map g := by
  induction l with
  | nil => rfl
  | cons a t ih =>
      obtain ⟨k, v⟩ := a
      by_cases hk : k = uid
      · simp [lookupBalance_cons, hk]
      · simp only [List.map_cons, lookupBalance_cons]
        simp [hk]
        simpa using ih

lemma lookupBalance_map_add (uid : String) (c : ℚ) (l : List (String × ℚ)) :
    lookupBalance uid (l.map (fun p => if p.1 == uid then (p.1, p.2 + c) else p))
      = (lookupBalance uid l).map (fun x => x + c) :=
  lookupBalance_map_adjust uid (fun x => x + c) l

lemma lookupBalance_map_sub (uid : String) (c : ℚ) (l : List (String × ℚ)) :
    lookupBalance uid (l.map (fun p => if p.1 == uid then (p.1, p.2 - c) else p))
      = (lookupBalance uid l).map (fun x => x - c) :=
  lookupBalance_map_adjust uid (fun x => x - c) l

lemma lookupBalance_append_self (uid : String) (l : List (String × ℚ))
    (h : lookupBalance uid l = none) :
    lookupBalance uid (l ++ [(uid, 0)]) = some 0 := by
  induction l with
  | nil => simp [lookupBalance_cons]
  | cons a t ih =>
      obtain ⟨k, v⟩ := a
      by_cases hk : k = uid
      · simp [lookupBalance_cons, hk] at h
      · simp only [List.cons_append, lookupBalance_cons] at h ⊢
        simp only [show (k == uid) = false by simp [hk], Bool.false_eq_true,
          if_false] at h ⊢
        exact ih h

lemma get_balance_of_lookup (uid : String) (db : DB) (b : ℚ)
    (h : lookupBalance uid db.users = some b) :
    get_balance uid db = (b, db) := by
  simp [get_balance, h]

lemma get_balance_lookup (uid : String) (db : DB) :
    lookupBalance uid (get_balance uid db).2.users = some (get_balance uid db).1 := by
  rcases hl : lookupBalance uid db.users with _ | b
  · simp [get_balance, hl, lookupBalance_append_self uid db.users hl]
  · simp [get_balance, hl]

lemma get_balance_bets (uid : String) (db : DB) :
    (get_balance uid db).2.bets = db.bets := by
  rcases hl : lookupBalance uid db.users with _ | b <;> simp [get_balance, hl]

lemma get_balance_stable (uid : String) (db : DB) :
    get_balance uid (get_balance uid db).2
      = ((get_balance uid db).1, (get_balance uid db).2) :=
  get_balance_of_lookup uid _ _ (get_balance_lookup uid db)

lemma isOpenFor_settleRow (uid : String) (m : ℚ) (w : Wager) :
    isOpenFor uid (settleRow uid m w) = false := by
  cases hw : (w.telegram_id == uid) with
  | true =>
      simp only [settleRow, if_pos hw]
      simp [isOpenFor]
  | false =>
      simp only [settleRow, if_neg (by simp [hw] : ¬(w.telegram_id == uid) = true)]
      simp [isOpenFor, hw]

lemma unsettled_map_settle (uid : String) (m : ℚ) (bets : List Wager) :
    unsettled uid (bets.map (settleRow uid m)) = [] := by
  induction bets with
  | nil => rfl
  | cons w t ih =>
      have hno : ¬ isOpenFor uid (settleRow uid m w) = true := by
        simp [isOpenFor_settleRow]
      simp only [unsettled, List.map_cons, List.filter_cons_of_neg hno]
      exact ih

lemma settled_rows_after (uid : String) (m : ℚ) (bets : List Wager) :
    ∀ w' ∈ bets.map (settleRow uid m), w'.telegram_id = uid →
      w'.cashed_out = true ∧ w'.multiplier = m := by
  intro w' hw' heq
  rcases List.mem_map.mp hw' with ⟨v, _, rfl⟩
  cases hv : (v.telegram_id == uid) with
  | true =>
      have e : settleRow uid m v = ⟨v.telegram_id, v.amount, true, m⟩ := by
        simp only [settleRow, if_pos hv]
      rw [e]
      exact ⟨rfl, rfl⟩
  | false =>
      exfalso
      have e : settleRow uid m v = v := by
        simp only [settleRow, if_neg (by simp [hv] : ¬(v.telegram_id == uid) = true)]
      rw [e] at heq
      simp [heq] at hv

/-! ### Helper lemmas about the flight loop -/

lemma round2_bounds (q : ℚ) (h1 : 1/100 ≤ q) (h2 : q ≤ 5/100) :
    1/100 ≤ round2 q ∧ round2 q ≤ 5/100 := by
  have hl : (1:ℤ) ≤ round (q * 100) := by
    rw [round_eq]
    exact Int.le_floor.mpr (by push_cast; linarith)
  have hu : round (q * 100) ≤ 5 := by
    rw [round_eq]
    have : ⌊q * 100 + 1/2⌋ < 6 := Int.floor_lt.mpr (by push_cast; linarith)
    omega
  have hl' : (1:ℚ) ≤ ((round (q * 100) : ℤ) : ℚ) := by exact_mod_cast hl
  have hu' : (((round (q * 100) : ℤ) : ℚ)) ≤ 5 := by exact_mod_cast hu
  constructor
  · simp only [round2]; linarith
  · simp only [round2]; linarith

lemma validTicks_tail {p : ℚ × Bool} {rest : List (ℚ × Bool)}
    (hv : validTicks (p :: rest)) : validTicks rest :=
  fun q hq => hv q (List.mem_cons_of_mem _ hq)

lemma validTicks_head {p : ℚ × Bool} {rest : List (ℚ × Bool)}
    (hv : validTicks (p :: rest)) : 1/100 ≤ p.1 ∧ p.1 ≤ 5/100 :=
  hv p (List.mem_cons_self _ _)

lemma flightMults_chain (l : List (ℚ × Bool)) :
    ∀ m : ℚ, validTicks l →
      List.Chain' (fun a b => a ≤ b ∧ 1/100 ≤ b - a ∧ b - a ≤ 5/100)
        (m :: flightMults m l) := by
  induction l with
  | nil => intro m _; simp [flightMults]
  | cons p rest ih =>
      intro m hv
      obtain ⟨d, c⟩ := p
      have hd := validTicks_head hv
      have hr := round2_bounds d hd.1 hd.2
      have hR : m ≤ m + round2 d ∧ 1/100 ≤ m + round2 d - m ∧
          m + round2 d - m ≤ 5/100 :=
        ⟨by linarith [hr.1], by linarith [hr.1], by linarith [hr.2]⟩
      by_cases hbr : c = true ∨ m + round2 d > 100
      · simp only [flightMults, if_pos hbr]
        exact List.chain'_cons.mpr ⟨hR, List.chain'_singleton _⟩
      · simp only [flightMults, if_neg hbr]
        exact List.chain'_cons.mpr ⟨hR, ih (m + round2 d) (validTicks_tail hv)⟩

lemma flightFinal_none_bound (l : List (ℚ × Bool)) :
    ∀ m : ℚ, validTicks l → flightFinal m l = none →
      l = [] ∨ m + l.length * (1/100) ≤ 100 := by
  induction l with
  | nil => intro m _ _; exact Or.inl rfl
  | cons p rest ih =>
      intro m hv hn
      obtain ⟨d, c⟩ := p
      have hd := validTicks_head hv
      have hr := round2_bounds d hd.1 hd.2
      by_cases hbr : c = true ∨ m + round2 d > 100
      · simp only [flightFinal, if_pos hbr] at hn
        exact absurd hn (by simp)
      · simp only [flightFinal, if_neg hbr] at hn
        push_neg at hbr
        right
        rcases ih (m + round2 d) (validTicks_tail hv) hn with h | h
        · subst h
          simp only [List.length_cons, List.length_nil]
          push_cast
          linarith [hbr.2, hr.1]
        · simp only [List.length_cons]
          push_cast
          linarith [hr.1]

lemma flightFinal_ge (l : List (ℚ × Bool)) :
    ∀ m x : ℚ, validTicks l → flightFinal m l = some x → m ≤ x := by
  induction l with
  | nil => intro m x _ h; exact absurd h (by simp [flightFinal])
  | cons p rest ih =>
      intro m x hv h
      obtain ⟨d, c⟩ := p
      have hd := validTicks_head hv
      have hr := round2_bounds d hd.1 hd.2
      by_cases hbr : c = true ∨ m + round2 d > 100
      · simp only [flightFinal, if_pos hbr, Option.some.injEq] at h
        linarith [hr.1]
      · simp only [flightFinal, if_neg hbr] at h
        have := ih (m + round2 d) x (validTicks_tail hv) h
        linarith [hr.1]

lemma flightMults_ge (l : List (ℚ × Bool)) :
    ∀ m : ℚ, validTicks l → ∀ v ∈ flightMults m l, m ≤ v := by
  induction l with
  | nil => intro m _ v hv; simp [flightMults] at hv
  | cons p rest ih =>
      intro m hv v hvm
      obtain ⟨d, c⟩ := p
      have hd := validTicks_head hv
      have hr := round2_bounds d hd.1 hd.2
      by_cases hbr : c = true ∨ m + round2 d > 100
      · simp only [flightMults, if_pos hbr, List.mem_singleton] at hvm
        subst hvm
        linarith [hr.1]
      · simp only [flightMults, if_neg hbr, List.mem_cons] at hvm
        rcases hvm with rfl | hvm
        · linarith [hr.1]
        · have := ih (m + round2 d) (validTicks_tail hv) v hvm
          linarith [hr.1]

/-! ### Helper lemmas about the bet endpoint -/

lemma bet_closed (gs : GameState) (uid : String) (amt : ℚ) (db : DB)
    (h : gs.is_running = true) :
    bet gs uid amt db = ("betting closed", db) := by
  simp [bet, h]

lemma bet_open_placed (gs : GameState) (uid : String) (amt : ℚ) (db : DB)
    (h1 : gs.is_running = false) (h2 : gs.time_left ≤ 0)
    (hb : (get_balance uid db).1 ≥ amt) :
    bet gs uid amt db = ("bet placed", place_bet uid amt (get_balance uid db).2) := by
  simp only [bet]
  rw [if_pos ⟨by simp [h1], h2⟩, if_pos hb]

lemma bet_insufficient (gs : GameState) (uid : String) (amt : ℚ) (db : DB)
    (h1 : gs.is_running = false) (h2 : gs.time_left ≤ 0)
    (hb : (get_balance uid db).1 < amt) :
    bet gs uid amt db = ("insufficient funds", (get_balance uid db).2) := by
  simp only [bet]
  rw [if_pos ⟨by simp [h1], h2⟩, if_neg (not_le.mpr hb)]

lemma unsettled_append (uid : String) (l l' : List Wager) :
    unsettled uid (l ++ l') = unsettled uid l ++ unsettled uid l' :=
  List.filter_append _ _

/-! ### Claim theorems -/

/-- C1: the spec says a `POST /bet` is admitted while the phase is Countdown
and the betting window is open, but the code's gate is
`not is_running and time_left <= 0`: at the Countdown state with
`time_left = 10` and a user whose balance (100) covers the stake (30), the
request is rejected with "betting closed" and no state changes, contradicting
the intended admission rule (flagged in the spec as an off-by-one). -/
theorem bet_rejected_during_countdown :
    bet ⟨10, 1, false⟩ "u" 30 ⟨[("u", 100)], []⟩
      = ("betting closed", ⟨[("u", 100)], []⟩) ∧
    lookupBalance "u" [("u", 100)] = some 100 ∧ (30:ℚ) ≤ 100 := by
  refine ⟨by norm_num [bet], by simp [lookupBalance_cons], by norm_num⟩

/-- C2 counterexample: two consecutive `POST /bet` calls for the same user
in the same round both succeed with "bet placed" — there is no
`WagerAlreadyOpen` failure — leaving the user with two unsettled wagers. -/
theorem double_wager_counterexample :
    (bet ⟨0, 1, false⟩ "u" 30 (bet ⟨0, 1, false⟩ "u" 30 ⟨[("u", 100)], []⟩).2).1
      = "bet placed" ∧
    (unsettled "u"
      (bet ⟨0, 1, false⟩ "u" 30
        (bet ⟨0, 1, false⟩ "u" 30 ⟨[("u", 100)], []⟩).2).2.bets).length = 2 := by
  norm_num [bet, get_balance, lookupBalance, place_bet, unsettled, isOpenFor,
    List.find?, List.filter]

/-- C2 (amended): `place_bet` performs no open-wager check, so whenever the
phase gate and the balance check pass, a second `open_wager` in the same
round also succeeds with "bet placed" and appends a second unsettled wager
(debiting again); a user can hold several unsettled wagers at once. -/
theorem double_wager_succeeds (gs : GameState) (uid : String) (a₁ a₂ : ℚ)
    (db : DB)
    (h1 : gs.is_running = false) (h2 : gs.time_left ≤ 0)
    (hb1 : a₁ ≤ (get_balance uid db).1)
    (hb2 : a₂ ≤ (get_balance uid db).1 - a₁) :
    (bet gs uid a₁ db).1 = "bet placed" ∧
    (bet gs uid a₂ (bet gs uid a₁ db).2).1 = "bet placed" ∧
    unsettled uid (bet gs uid a₂ (bet gs uid a₁ db).2).2.bets
      = unsettled uid db.bets ++ [⟨uid, a₁, false, 1⟩, ⟨uid, a₂, false, 1⟩] := by
  have e1 : bet gs uid a₁ db
      = ("bet placed", place_bet uid a₁ (get_balance uid db).2) :=
    bet_open_placed gs uid a₁ db h1 h2 hb1
  have hlook : lookupBalance uid (place_bet uid a₁ (get_balance uid db).2).users
      = some ((get_balance uid db).1 - a₁) := by
    show lookupBalance uid
      ((get_balance uid db).2.users.map
        (fun p => if p.1 == uid then (p.1, p.2 - a₁) else p)) = _
    rw [lookupBalance_map_sub, get_balance_lookup]
    rfl
  have e2 : get_balance uid (place_bet uid a₁ (get_balance uid db).2)
      = ((get_balance uid db).1 - a₁, place_bet uid a₁ (get_balance uid db).2) :=
    get_balance_of_lookup uid _ _ hlook
  have e3 : bet gs uid a₂ (place_bet uid a₁ (get_balance uid db).2)
      = ("bet placed",
         place_bet uid a₂
           (get_balance uid (place_bet uid a₁ (get_balance uid db).2)).2) :=
    bet_open_placed gs uid a₂ _ h1 h2 (by rw [e2]; exact hb2)
  refine ⟨by rw [e1], by rw [e1]; rw [e3], ?_⟩
  rw [e1]
  show unsettled uid (bet gs uid a₂ (place_bet uid a₁ (get_balance uid db).2)).2.bets = _
  rw [e3]
  show unsettled uid
      (place_bet uid a₂
        (get_balance uid (place_bet uid a₁ (get_balance uid db).2)).2).bets = _
  rw [e2]
  show unsettled uid
      ((place_bet uid a₁ (get_balance uid db).2).bets ++ [⟨uid, a₂, false, 1⟩]) = _
  show unsettled uid
      (((get_balance uid db).2.bets ++ [⟨uid, a₁, false, 1⟩]) ++ [⟨uid, a₂, false, 1⟩]) = _
  rw [get_balance_bets, List.append_assoc, unsettled_append]
  simp [unsettled, isOpenFor]

/-- C3 counterexample: for a user with no wager record at all, a cash-out
during Flight does not fail with `NoOpenWager`: it succeeds with status
"cashed out", a win of 0, and an unchanged database (the code has no error
path for this case). -/
theorem settle_no_wager_counterexample :
    do_cashout ⟨0, 2, true⟩ "nw" ⟨[("nw", 50)], []⟩
      = (("cashed out", some 0), ⟨[("nw", 50)], []⟩) := by
  norm_num [do_cashout, cashout, List.find?]

/-- C3 (amended): when the user has no unsettled wager (none was ever placed,
or it is already settled), `cashout` returns a payout of 0 and leaves the
database unchanged — there is no `NoOpenWager` error; and settlement is
idempotent: a second `cashout` for the same user always returns 0 and makes
no further change. -/
theorem settle_idempotent (uid : String) (m m' : ℚ) (db : DB) :
    (unsettled uid db.bets = [] → cashout uid m db = (0, db)) ∧
    cashout uid m' (cashout uid m db).2 = (0, (cashout uid m db).2) := by
  constructor
  · intro h
    simp only [cashout, find?_isOpen_of_unsettled_nil uid db.bets h]
  · have hnone : (cashout uid m db).2.bets.find? (isOpenFor uid) = none := by
      rcases hf : db.bets.find? (isOpenFor uid) with _ | w
      · have hbets2 : (cashout uid m db).2.bets = db.bets := by
          simp only [cashout, hf]
        rw [hbets2, hf]
      · have hbets2 : (cashout uid m db).2.bets
            = db.bets.map (settleRow uid m) := by
          simp only [cashout, hf]
        rw [hbets2]
        exact find?_isOpen_of_unsettled_nil _ _ (unsettled_map_settle uid m db.bets)
    set db1 := (cashout uid m db).2 with hdb1
    simp only [cashout, hnone]

/-- C5 counterexample: the bet endpoint performs no positivity check on the
amount: a user with balance 0 may "bet" −5, which is admitted
("bet placed") and records a wager row with amount −5 (and credits the
balance), violating the claimed invariant `amount > 0`. -/
theorem wager_nonpositive_counterexample :
    (bet ⟨0, 1, false⟩ "v" (-5) ⟨[("v", 0)], []⟩).1 = "bet placed" ∧
    (bet ⟨0, 1, false⟩ "v" (-5) ⟨[("v", 0)], []⟩).2.bets
      = [⟨"v", -5, false, 1⟩] ∧
    lookupBalance "v" (bet ⟨0, 1, false⟩ "v" (-5) ⟨[("v", 0)], []⟩).2.users
      = some 5 ∧
    ¬ ((-5:ℚ) > 0) := by
  norm_num [bet, get_balance, lookupBalance, place_bet, List.find?]

/-- C5 (amended): `bet` admits any amount — zero or negative included —
whenever the phase gate passes and `balance ≥ amount`, and the recorded
wager's amount is exactly the requested amount; no `amount > 0` invariant
is enforced anywhere. -/
theorem bet_no_amount_check (gs : GameState) (uid : String) (amt : ℚ) (db : DB)
    (h1 : gs.is_running = false) (h2 : gs.time_left ≤ 0)
    (hbal : amt ≤ (get_balance uid db).1) :
    bet gs uid amt db = ("bet placed", place_bet uid amt (get_balance uid db).2) ∧
    (bet gs uid amt db).2.bets = db.bets ++ [⟨uid, amt, false, 1⟩] := by
  have e := bet_open_placed gs uid amt db h1 h2 hbal
  refine ⟨e, ?_⟩
  rw [e]
  show (get_balance uid db).2.bets ++ [⟨uid, amt, false, 1⟩] = _
  rw [get_balance_bets]

/-- C7: on Crash the code runs `reset_bets`, which deletes every wager row
(settled or not) and touches no balance, so a user who never cashed out is
never credited; concretely, after betting 30 from 100 and never cashing
out, the post-crash state has no wagers and balance 70. -/
theorem round_end_clear (db : DB) :
    (reset_bets db).bets = [] ∧ (reset_bets db).users = db.users ∧
    reset_bets (bet ⟨0, 1, false⟩ "u" 30 ⟨[("u", 100)], []⟩).2
      = ⟨[("u", 70)], []⟩ := by
  refine ⟨rfl, rfl, ?_⟩
  norm_num [reset_bets, bet, get_balance, lookupBalance, place_bet, List.find?]

/-- C8: a wager attempted inside the code's betting window by a user whose
balance is below the amount is rejected with "insufficient funds": no wager
row is added and the user's balance value is unchanged. -/
theorem insufficient_funds_rejected (gs : GameState) (uid : String) (amt : ℚ)
    (db : DB)
    (h1 : gs.is_running = false) (h2 : gs.time_left ≤ 0)
    (h3 : (get_balance uid db).1 < amt) :
    bet gs uid amt db = ("insufficient funds", (get_balance uid db).2) ∧
    (bet gs uid amt db).2.bets = db.bets ∧
    (get_balance uid (bet gs uid amt db).2).1 = (get_balance uid db).1 := by
  have e := bet_insufficient gs uid amt db h1 h2 h3
  refine ⟨e, ?_, ?_⟩
  · rw [e]
    exact get_balance_bets uid db
  · rw [e]
    show (get_balance uid (get_balance uid db).2).1 = (get_balance uid db).1
    rw [get_balance_stable]

/-- C4: a cash-out admitted during Flight for a user holding exactly one
open wager of amount `w.amount` pays out `w.amount * multiplier`, credits
the balance exactly once, marks the wager settled, and returns the payout
in the response. -/
theorem cashout_payout (gs : GameState) (uid : String) (b : ℚ) (db : DB)
    (w : Wager)
    (hrun : gs.is_running = true)
    (hw : unsettled uid db.bets = [w])
    (hb : lookupBalance uid db.users = some b) :
    (do_cashout gs uid db).1 = ("cashed out", some (w.amount * gs.multiplier)) ∧
    lookupBalance uid (do_cashout gs uid db).2.users
      = some (b + w.amount * gs.multiplier) ∧
    unsettled uid (do_cashout gs uid db).2.bets = [] := by
  have hf : db.bets.find? (isOpenFor uid) = some w :=
    find?_isOpen_of_unsettled_cons uid db.bets w [] hw
  have hc : cashout uid gs.multiplier db
      = (w.amount * gs.multiplier,
         ⟨db.users.map
            (fun p => if p.1 == uid then (p.1, p.2 + w.amount * gs.multiplier) else p),
          db.bets.map (settleRow uid gs.multiplier)⟩) := by
    simp only [cashout, hf]
  have hdo : do_cashout gs uid db
      = (("cashed out", some (cashout uid gs.multiplier db).1),
         (cashout uid gs.multiplier db).2) := by
    simp only [do_cashout, if_pos hrun]
  refine ⟨?_, ?_, ?_⟩
  · rw [hdo, hc]
  · rw [hdo, hc]
    show lookupBalance uid
      (db.users.map
        (fun p => if p.1 == uid then (p.1, p.2 + w.amount * gs.multiplier) else p))
      = some (b + w.amount * gs.multiplier)
    rw [lookupBalance_map_add, hb]
    rfl
  · rw [hdo, hc]
    exact unsettled_map_settle uid gs.multiplier db.bets

/-- C10: when a user holds more than one unsettled wager, a single cash-out
pays out from only the first unsettled row (`w.amount * multiplier`, credited
once), yet marks every row of that user settled with the new multiplier —
already-settled rows included — and any later cash-out for that user returns
0 with no change: the remaining stakes are never paid out. -/
theorem cashout_first_wins (gs : GameState) (uid : String) (b : ℚ) (db : DB)
    (w : Wager) (ws : List Wager)
    (hrun : gs.is_running = true)
    (hw : unsettled uid db.bets = w :: ws)
    (_hmulti : ws ≠ [])
    (hb : lookupBalance uid db.users = some b) :
    (do_cashout gs uid db).1 = ("cashed out", some (w.amount * gs.multiplier)) ∧
    lookupBalance uid (do_cashout gs uid db).2.users
      = some (b + w.amount * gs.multiplier) ∧
    (do_cashout gs uid db).2.bets = db.bets.map (settleRow uid gs.multiplier) ∧
    (∀ w' ∈ (do_cashout gs uid db).2.bets, w'.telegram_id = uid →
        w'.cashed_out = true ∧ w'.multiplier = gs.multiplier) ∧
    ∀ gs' : GameState, gs'.is_running = true →
      do_cashout gs' uid (do_cashout gs uid db).2
        = (("cashed out", some 0), (do_cashout gs uid db).2) := by
  have hf : db.bets.find? (isOpenFor uid) = some w :=
    find?_isOpen_of_unsettled_cons uid db.bets w ws hw
  have hc : cashout uid gs.multiplier db
      = (w.amount * gs.multiplier,
         ⟨db.users.map
            (fun p => if p.1 == uid then (p.1, p.2 + w.amount * gs.multiplier) else p),
          db.bets.map (settleRow uid gs.multiplier)⟩) := by
    simp only [cashout, hf]
  have hdo : do_cashout gs uid db
      = (("cashed out", some (cashout uid gs.multiplier db).1),
         (cashout uid gs.multiplier db).2) := by
    simp only [do_cashout, if_pos hrun]
  have hbets : (do_cashout gs uid db).2.bets
      = db.bets.map (settleRow uid gs.multiplier) := by
    rw [hdo, hc]
  refine ⟨?_, ?_, hbets, ?_, ?_⟩
  · rw [hdo, hc]
  · rw [hdo, hc]
    show lookupBalance uid
      (db.users.map
        (fun p => if p.1 == uid then (p.1, p.2 + w.amount * gs.multiplier) else p))
      = some (b + w.amount * gs.multiplier)
    rw [lookupBalance_map_add, hb]
    rfl
  · rw [hbets]
    exact settled_rows_after uid gs.multiplier db.bets
  · intro gs' hrun'
    have hnone : (do_cashout gs uid db).2.bets.find? (isOpenFor uid) = none := by
      rw [hbets]
      exact find?_isOpen_of_unsettled_nil _ _
        (unsettled_map_settle uid gs.multiplier db.bets)
    set db1 := (do_cashout gs uid db).2 with hdb1
    have hc2 : cashout uid gs'.multiplier db1 = (0, db1) := by
      simp only [cashout, hnone]
    simp only [do_cashout, if_pos hrun', hc2]

/-- C6 counterexample: after a round whose flight ends at multiplier 1.05
(a single tick with draw 0.05 and a crash roll that fires), the re-entry
into Countdown resets `time_left` to 10 and `is_running` to false but the
published multiplier stays at 1.05, not 1.0 — a snapshot sent to a viewer
connecting during this Countdown therefore shows the previous round's
final multiplier. -/
theorem countdown_snapshot_counterexample :
    roundEnd [((5:ℚ)/100, true)] = some ⟨0, 21/20, true⟩ ∧
    countdownEntry ⟨0, 21/20, true⟩ = ⟨10, 21/20, false⟩ ∧
    snapshot (countdownEntry ⟨0, 21/20, true⟩) = (false, 21/20, 10) ∧
    ((21:ℚ)/20) ≠ 1 := by
  refine ⟨?_, rfl, rfl, by norm_num⟩
  norm_num [roundEnd, flightFinal, round2, round_eq]

/-- C6 (amended): entering Countdown sets `countdown_remaining = 10` and
leaves Flight (`is_running = false`), but does not reset the published
multiplier: it keeps the previous round's final flight value, which (for
draws in the configured range) is at least 1, as is every multiplier value
published during the flight; the invariant multiplier ≥ 1.0 holds, the
reset of the multiplier to 1.0 does not. -/
theorem countdown_reentry_state (l : List (ℚ × Bool)) (st : GameState)
    (hv : validTicks l) (h : roundEnd l = some st) :
    countdownEntry st = ⟨10, st.multiplier, false⟩ ∧
    1 ≤ st.multiplier ∧
    ∀ v ∈ flightMults 1 l, 1 ≤ v := by
  have hf : flightFinal 1 l = some st.multiplier := by
    rcases hff : flightFinal 1 l with _ | x
    · simp [roundEnd, hff] at h
    · simp only [roundEnd, hff, Option.map_some'] at h
      obtain rfl : (⟨0, x, true⟩ : GameState) = st := Option.some.inj h
      rfl
  refine ⟨rfl, flightFinal_ge l 1 st.multiplier hv hf, flightMults_ge l 1 hv⟩

/-- C9: during Flight the published multiplier sequence is monotonically
non-decreasing, each tick's increment lies in the configured bound
[0.01, 0.05] (the rounded draw), and the loop is guaranteed to break within
a bounded number of ticks (9901, by when the multiplier has exceeded 100)
regardless of the crash rolls. -/
theorem flight_dynamics (l : List (ℚ × Bool)) (hv : validTicks l) :
    List.Chain' (fun a b => a ≤ b ∧ 1/100 ≤ b - a ∧ b - a ≤ 5/100)
      ((1:ℚ) :: flightMults 1 l) ∧
    (9901 ≤ l.length → (flightFinal 1 l).isSome = true) := by
  refine ⟨flightMults_chain l 1 hv, fun hlen => ?_⟩
  rcases hn : flightFinal 1 l with _ | x
  · exfalso
    rcases flightFinal_none_bound l 1 hv hn with h | h
    · subst h
      simp at hlen
    · have hq : (9901:ℚ) ≤ (l.length : ℚ) := by exact_mod_cast hlen
      linarith
  · rfl

/-! ### Witnesses -/

/-- Witness for C2: user "u2" with balance 100 bets 30 twice at the admission
point; both calls succeed and two unsettled wagers result. -/
theorem double_wager_succeeds_witness :
    (bet ⟨0, 1, false⟩ "u2" 30 ⟨[("u2", 100)], []⟩).1 = "bet placed" ∧
    (bet ⟨0, 1, false⟩ "u2" 30
      (bet ⟨0, 1, false⟩ "u2" 30 ⟨[("u2", 100)], []⟩).2).1 = "bet placed" ∧
    unsettled "u2" (bet ⟨0, 1, false⟩ "u2" 30
        (bet ⟨0, 1, false⟩ "u2" 30 ⟨[("u2", 100)], []⟩).2).2.bets
      = [⟨"u2", 30, false, 1⟩, ⟨"u2", 30, false, 1⟩] :=
  double_wager_succeeds ⟨0, 1, false⟩ "u2" 30 30 ⟨[("u2", 100)], []⟩ rfl
    (by norm_num)
    (by norm_num [get_balance, lookupBalance, List.find?])
    (by norm_num [get_balance, lookupBalance, List.find?])

/-- Witness for C3: a user with no wager gets payout 0 with no change, and a
repeated settlement also returns 0 with no further change. -/
theorem settle_idempotent_witness :
    cashout "s" 2 ⟨[("s", 50)], []⟩ = (0, ⟨[("s", 50)], []⟩) ∧
    cashout "s" 3 (cashout "s" 2 ⟨[("s", 50)], []⟩).2
      = (0, (cashout "s" 2 ⟨[("s", 50)], []⟩).2) := by
  have h := settle_idempotent "s" 2 3 ⟨[("s", 50)], []⟩
  exact ⟨h.1 rfl, h.2⟩

/-- Witness for C4: the spec's scenario — balance 100, bet 30 at the
admission point, cash out at multiplier 2.0 — pays 60 and leaves the
balance at 130. -/
theorem cashout_payout_witness :
    (do_cashout ⟨0, 2, true⟩ "u"
        (bet ⟨0, 1, false⟩ "u" 30 ⟨[("u", 100)], []⟩).2).1
      = ("cashed out", some 60) ∧
    lookupBalance "u" (do_cashout ⟨0, 2, true⟩ "u"
        (bet ⟨0, 1, false⟩ "u" 30 ⟨[("u", 100)], []⟩).2).2.users
      = some 130 := by
  have h := cashout_payout ⟨0, 2, true⟩ "u" 70
      (bet ⟨0, 1, false⟩ "u" 30 ⟨[("u", 100)], []⟩).2 ⟨"u", 30, false, 1⟩ rfl
      (by norm_num [bet, get_balance, lookupBalance, place_bet, unsettled,
        isOpenFor, List.find?, List.filter])
      (by norm_num [bet, get_balance, lookupBalance, place_bet, List.find?])
  refine ⟨?_, ?_⟩
  · rw [h.1]
    norm_num
  · rw [h.2.1]
    norm_num

/-- Witness for C5: amount 0 with balance 0 passes every check and records
a zero-amount wager. -/
theorem bet_no_amount_check_witness :
    bet ⟨0, 1, false⟩ "z" 0 ⟨[("z", 0)], []⟩
      = ("bet placed", place_bet "z" 0 (get_balance "z" ⟨[("z", 0)], []⟩).2) ∧
    (bet ⟨0, 1, false⟩ "z" 0 ⟨[("z", 0)], []⟩).2.bets
      = [⟨"z", 0, false, 1⟩] :=
  bet_no_amount_check ⟨0, 1, false⟩ "z" 0 ⟨[("z", 0)], []⟩ rfl (by norm_num)
    (by norm_num [get_balance, lookupBalance, List.find?])

/-- Witness for C6 (amended): a one-tick round ending at 1.05 re-enters
Countdown with the multiplier still 1.05. -/
theorem countdown_reentry_state_witness :
    countdownEntry ⟨0, 21/20, true⟩ = ⟨10, 21/20, false⟩ ∧
    (1:ℚ) ≤ 21/20 ∧
    ∀ v ∈ flightMults 1 [((5:ℚ)/100, true)], 1 ≤ v :=
  countdown_reentry_state [((5:ℚ)/100, true)] ⟨0, 21/20, true⟩
    (by intro p hp; simp at hp; rw [hp]; norm_num)
    (by norm_num [roundEnd, flightFinal, round2, round_eq])

/-- Witness for C8: an unknown user (lazily created with balance 0) betting
5 is rejected with "insufficient funds" and no state change. -/
theorem insufficient_funds_rejected_witness :
    bet ⟨0, 1, false⟩ "nf" 5 ⟨[], []⟩
      = ("insufficient funds", (get_balance "nf" ⟨[], []⟩).2) ∧
    (bet ⟨0, 1, false⟩ "nf" 5 ⟨[], []⟩).2.bets = [] ∧
    (get_balance "nf" (bet ⟨0, 1, false⟩ "nf" 5 ⟨[], []⟩).2).1
      = (get_balance "nf" ⟨[], []⟩).1 :=
  insufficient_funds_rejected ⟨0, 1, false⟩ "nf" 5 ⟨[], []⟩ rfl (by norm_num)
    (by norm_num [get_balance, lookupBalance, List.find?])

/-- Witness for C9: a concrete valid draw stream satisfies the chain
property, and a 9901-tick valid stream is guaranteed to break. -/
theorem flight_dynamics_witness :
    List.Chain' (fun a b => a ≤ b ∧ 1/100 ≤ b - a ∧ b - a ≤ 5/100)
      ((1:ℚ) :: flightMults 1 [((1:ℚ)/50, false), ((3:ℚ)/100, true)]) ∧
    (flightFinal 1 (List.replicate 9901 ((1:ℚ)/50, false))).isSome = true :=
  ⟨(flight_dynamics [((1:ℚ)/50, false), ((3:ℚ)/100, true)]
      (by
        intro p hp
        simp only [List.mem_cons, List.mem_singleton, List.not_mem_nil,
          or_false] at hp
        rcases hp with rfl | rfl <;> norm_num)).1,
   (flight_dynamics (List.replicate 9901 ((1:ℚ)/50, false))
      (by intro p hp; rw [List.eq_of_mem_replicate hp]; norm_num)).2
     (le_of_eq (List.length_replicate 9901 ((1:ℚ)/50, false)).symm)⟩

/-- Witness for C10: user "m" holds two unsettled wagers (10 and 20); a
cash-out at multiplier 3 pays only 30 (from the first), credits the balance
to 130, settles both rows, and a later cash-out returns 0. -/
theorem cashout_first_wins_witness :
    (do_cashout ⟨0, 3, true⟩ "m"
        ⟨[("m", 100)], [⟨"m", 10, false, 1⟩, ⟨"m", 20, false, 1⟩]⟩).1
      = ("cashed out", some ((10:ℚ) * 3)) ∧
    lookupBalance "m" (do_cashout ⟨0, 3, true⟩ "m"
        ⟨[("m", 100)], [⟨"m", 10, false, 1⟩, ⟨"m", 20, false, 1⟩]⟩).2.users
      = some (100 + (10:ℚ) * 3) ∧
    do_cashout ⟨0, 4, true⟩ "m"
        (do_cashout ⟨0, 3, true⟩ "m"
          ⟨[("m", 100)], [⟨"m", 10, false, 1⟩, ⟨"m", 20, false, 1⟩]⟩).2
      = (("cashed out", some 0),
         (do_cashout ⟨0, 3, true⟩ "m"
           ⟨[("m", 100)], [⟨"m", 10, false, 1⟩, ⟨"m", 20, false, 1⟩]⟩).2) := by
  have h := cashout_first_wins ⟨0, 3, true⟩ "m" 100
      ⟨[("m", 100)], [⟨"m", 10, false, 1⟩, ⟨"m", 20, false, 1⟩]⟩
      ⟨"m", 10, false, 1⟩ [⟨"m", 20, false, 1⟩] rfl
      (by norm_num [unsettled, isOpenFor, List.filter])
      (by simp)
      (by norm_num [lookupBalance, List.find?])
  exact ⟨h.1, h.2.1, h.2.2.2.2 ⟨0, 4, true⟩ rfl⟩

end Kuttybol
